import Mathlib

/-!
Verification of the fish-weight simulation program (fish_weight_simulation.py).

The program simulates daily fish growth: starting from an initial weight, it
folds the per-day growth formula
    weight_new = alpha * weight_cur ** beta * exp(temp_cur * tau) + weight_cur
over an ordered list of daily water temperatures using Python's reduce.
Auxiliary parts read a CSV temperature file and sanity-check the inputs.

Weights and temperatures (Python doubles) are modelled as real numbers for the
numeric core; the input validation and CSV parsing, which only compare and
build numbers, are modelled over the rationals so that they stay executable.
-/

namespace FishSim

/-- Embeds Python 2's built-in reduce(f, xs, init): a strict left fold, each
step rebinding the accumulator to f(accumulator, element). -/
def reduce {α β : Type} (f : α → β → α) (xs : List β) (init : α) : α :=
  match xs with
  | [] => init
  | x :: rest => reduce f rest (f init x)

/-- Embeds the inner function formula(weight_cur, temp_cur) of simulate_weight
(src lines 86-90): alpha * weight_cur ** beta * exp(temp_cur * tau) + weight_cur
with the local constants alpha = 0.038, beta = 0.6667, tau = 0.08.
Python's float ** is real rpow on the non-negative bases that actually occur. -/
noncomputable def formula (weight_cur temp_cur : ℝ) : ℝ :=
  let alpha : ℝ := 0.038
  let beta : ℝ := 0.6667
  let tau : ℝ := 0.08
  alpha * weight_cur ^ beta * Real.exp (temp_cur * tau) + weight_cur

/-- Embeds simulate_weight(w0, temperatures) (src lines 71-92):
return reduce(formula, temperatures, w0). -/
noncomputable def simulate_weight (w0 : ℝ) (temperatures : List ℝ) : ℝ :=
  reduce formula temperatures w0

/-- Accumulator values fed into formula (hence into the exponentiation
weight_cur ** beta) during simulate_weight w0 temps: one entry per day,
namely the running weight at the start of that day. -/
noncomputable def accumulators (w0 : ℝ) (ts : List ℝ) : List ℝ :=
  match ts with
  | [] => []
  | t :: rest => w0 :: accumulators (formula w0 t) rest

/-- Helper: one formula step never decreases a non-negative weight, since the
added term alpha * w ^ beta * exp (t * tau) is non-negative for w ≥ 0. -/
lemma formula_ge_self (w t : ℝ) (hw : 0 ≤ w) : w ≤ formula w t :=
  by
  show w ≤ 0.038 * w ^ (0.6667 : ℝ) * Real.exp (t * 0.08) + w
  have h1 : (0 : ℝ) ≤ 0.038 * w ^ (0.6667 : ℝ) * Real.exp (t * 0.08) :=
    mul_nonneg (mul_nonneg (by norm_num) (Real.rpow_nonneg hw _))
      (Real.exp_pos _).le
  linarith

/-! ### Input validation (check_sanity, src lines 125-135) -/

/-- Embeds Python truthiness of the third assert's argument in check_sanity:
the assert is given the 2-tuple (all(map(lambda t: t > -273, temperatures)),
'Invalid temperatures, should be larger than -273C') rather than a boolean,
and a non-empty tuple is truthy in Python whatever its components are. -/
def truthyPair (x : Bool × String) : Bool := true

/-- Embeds check_sanity(data) (src lines 125-135) with data = {'w0': w0,
't': temperatures}; returns true when all three asserts pass. The first two
asserts test w0 > 0 and len(temperatures) > 0; the third asserts the
truthiness of a tuple literal. -/
def check_sanity (w0 : ℚ) (temperatures : List ℚ) : Bool :=
  decide (w0 > 0) &&
  decide (temperatures.length > 0) &&
  truthyPair (temperatures.all (fun t => decide (t > -273)),
    "Invalid temperatures, should be larger than -273C")

/-! ### CSV reading (read_data, src lines 95-122) -/

/-- Embeds Python's str.split(sep) for a one-character separator, on the
character list of the string: splitting the empty text gives [''], and every
occurrence of the separator starts a new (possibly empty) chunk. -/
def splitOnChar (sep : Char) : List Char → List (List Char)
  | [] => [[]]
  | c :: cs =>
      match splitOnChar sep cs with
      | [] => [[c]]
      | g :: gs => if c == sep then [] :: g :: gs else (c :: g) :: gs

/-- Embeds a Python list comprehension (or map) whose element operation can
raise: none as soon as some element fails, otherwise the list of results. -/
def mapOption {α β : Type} (f : α → Option β) : List α → Option (List β)
  | [] => some []
  | x :: xs =>
      match f x with
      | none => none
      | some y =>
          match mapOption f xs with
          | none => none
          | some ys => some (y :: ys)

/-- Embeds Python's str.strip() used by float(): leading and trailing
whitespace removed. -/
def trimChars (cs : List Char) : List Char :=
  ((cs.dropWhile Char.isWhitespace).reverse.dropWhile Char.isWhitespace).reverse

/-- Value of a (most-significant-first) list of decimal digit characters. -/
def natOfDigits (cs : List Char) : ℕ :=
  cs.foldl (fun n c => 10 * n + (c.toNat - 48)) 0

/-- Mantissa part of a decimal literal: digits with an optional '.' and
fractional digits; at least one digit must be present. Returns the value and
the unconsumed suffix. -/
def parseMantissa (cs : List Char) : Option (ℚ × List Char) :=
  let intPart := cs.takeWhile Char.isDigit
  let rest1 := cs.dropWhile Char.isDigit
  match rest1 with
  | '.' :: rest2 =>
      let fracPart := rest2.takeWhile Char.isDigit
      let rest3 := rest2.dropWhile Char.isDigit
      if intPart.isEmpty && fracPart.isEmpty then none
      else
        some ((natOfDigits intPart : ℚ) +
          (natOfDigits fracPart : ℚ) / (10 : ℚ) ^ fracPart.length, rest3)
  | _ =>
      if intPart.isEmpty then none
      else some ((natOfDigits intPart : ℚ), rest1)

/-- Exponent suffix of a decimal literal: either nothing (exponent 0) or
e/E followed by an optional sign and at least one digit. -/
def parseExponentSuffix (cs : List Char) : Option ℤ :=
  match cs with
  | [] => some 0
  | c :: rest =>
      if c == 'e' || c == 'E' then
        match rest with
        | '+' :: ds =>
            if !ds.isEmpty && ds.all Char.isDigit then some (natOfDigits ds) else none
        | '-' :: ds =>
            if !ds.isEmpty && ds.all Char.isDigit then some (-(natOfDigits ds : ℤ)) else none
        | ds =>
            if !ds.isEmpty && ds.all Char.isDigit then some (natOfDigits ds) else none
      else none

/-- Models Python's built-in float() applied to a string, restricted to
ordinary decimal literals: surrounding whitespace is stripped, then an
optional sign, decimal digits with an optional fractional part, and an
optional e/E exponent. Returns none where Python raises ValueError. The value
is kept exact as a rational: the reader claims only concern which column is
parsed and when parsing fails, not double rounding. -/
def pyFloat (s : List Char) : Option ℚ :=
  let cs := trimChars s
  let signAndRest : ℚ × List Char :=
    match cs with
    | '-' :: rest => (-1, rest)
    | '+' :: rest => (1, rest)
    | _ => (1, cs)
  match parseMantissa signAndRest.2 with
  | none => none
  | some (m, rest) =>
      match parseExponentSuffix rest with
      | none => none
      | some e => some (signAndRest.1 * m * (10 : ℚ) ^ e)

/-- Embeds read_data(data_file) (src lines 95-122), acting on the text
content of the file (the filesystem read itself is outside the model).
Mirrors the Python steps: split the text on newlines, drop the empty lines
(filter(bool, data)), take the first remaining line as the labels row (split
on commas and discarded), split every later row on commas, extract each
row's third entry d[2] (an IndexError, modelled as none, if some row is
shorter), then convert all extracted entries with float() (a ValueError,
modelled as none, on a non-numeric entry). none also models the IndexError
raised by data[0] when every line is blank. -/
def read_data (text : String) : Option (List ℚ) :=
  let data0 := splitOnChar (Char.ofNat 10) text.toList
  let data1 := data0.filter (fun line => !line.isEmpty)
  match data1 with
  | [] => none
  | labelsRow :: rest =>
      let _labels := splitOnChar ',' labelsRow
      let rows := rest.map (fun d => splitOnChar ',' d)
      (mapOption (fun d => d.get? 2) rows).bind (fun thirds => mapOption pyFloat thirds)

/-- Drops the trailing run of empty lines, and nothing else. -/
def dropTrailingBlanks (lines : List (List Char)) : List (List Char) :=
  (lines.reverse.dropWhile List.isEmpty).reverse

/-- Modelled from the spec: the DataReader contract exactly as stated —
comma-separated rows, the first row is a header/labels row (discarded),
trailing blank lines are ignored, and each subsequent row's 3rd column
(index 2) is parsed as a floating-point temperature; fails (none, the
ParseError) when a row lacks a 3rd column or it is not numeric. -/
def read_data_spec (text : String) : Option (List ℚ) :=
  match dropTrailingBlanks (splitOnChar (Char.ofNat 10) text.toList) with
  | [] => none
  | _header :: rows =>
      mapOption (fun r => ((splitOnChar ',' r).get? 2).bind pyFloat) rows

/-- Modelled from the spec, amended as the code forces: identical to the
DataReader contract except that ALL blank lines (leading, interior and
trailing) are ignored, not only trailing ones. -/
def read_data_spec_amended (text : String) : Option (List ℚ) :=
  match (splitOnChar (Char.ofNat 10) text.toList).filter (fun line => !line.isEmpty) with
  | [] => none
  | _header :: rows =>
      mapOption (fun r => ((splitOnChar ',' r).get? 2).bind pyFloat) rows

/-- Helper: mapping before a fallible map fuses into one fallible map. -/
lemma mapOption_map {α β γ : Type} (h : α → β) (f : β → Option γ) (xs : List α) :
    mapOption f (xs.map h) = mapOption (fun x => f (h x)) xs := by
  induction xs with
  | nil => rfl
  | cons x xs ih => simp only [List.map_cons, mapOption, ih]

/-- Helper: extracting with f everywhere and then converting the extracted
list with g everywhere equals one pass applying f then g per element — over
Option there is a single failure value, so the failure order is invisible. -/
lemma mapOption_bind {α β γ : Type} (f : α → Option β) (g : β → Option γ)
    (xs : List α) :
    (mapOption f xs).bind (fun ys => mapOption g ys) =
      mapOption (fun x => (f x).bind g) xs := by
  induction xs with
  | nil => rfl
  | cons x xs ih =>
      cases hfx : f x with
      | none => simp [mapOption, hfx]
      | some b =>
          cases hmf : mapOption f xs with
          | none =>
              have h2 : mapOption (fun y => (f y).bind g) xs = none := by
                rw [← ih, hmf]; rfl
              cases hgb : g b <;> simp [mapOption, hfx, hmf, h2, hgb]
          | some ys =>
              have h2 : mapOption (fun y => (f y).bind g) xs = mapOption g ys := by
                rw [← ih, hmf]; rfl
              cases hgb : g b <;> simp [mapOption, hfx, hmf, h2, hgb]

/-! ### Claim theorems -/

/-- C1: simulate_weight(w0, temps) is the left-to-right fold of the growth
formula over temps with accumulator starting at w0: each element is consumed
once, in sequence order, each step's output becoming the next step's
weight_cur input, and the result after the last element is returned. -/
theorem simulate_weight_is_foldl (w0 : ℝ) (temps : List ℝ) :
    simulate_weight w0 temps = List.foldl formula w0 temps := by
  induction temps generalizing w0 with
  | nil => rfl
  | cons t ts ih =>
      show reduce formula ts (formula w0 t) = List.foldl formula (formula w0 t) ts
      exact ih (formula w0 t)

/-- C2: the per-day growth update computes exactly
alpha * weight_cur ^ beta * exp(temp_cur * tau) + weight_cur with the literal
constants alpha = 0.038, beta = 0.6667, tau = 0.08. -/
theorem formula_spec (weight_cur temp_cur : ℝ) :
    formula weight_cur temp_cur =
      0.038 * weight_cur ^ (0.6667 : ℝ) * Real.exp (temp_cur * 0.08) + weight_cur :=
  rfl

/-- C3: one application of the growth formula is monotonic non-decreasing for
every weight_cur ≥ 0 and every temp_cur > -273: the added term is
non-negative, so the output is at least weight_cur. -/
theorem formula_monotone (weight_cur temp_cur : ℝ)
    (hw : 0 ≤ weight_cur) (ht : -273 < temp_cur) :
    weight_cur ≤ formula weight_cur temp_cur :=
  formula_ge_self weight_cur temp_cur hw

/-- Witness for C3 at weight_cur = 1, temp_cur = 0. -/
theorem formula_monotone_witness :
    0 ≤ (1 : ℝ) ∧ -273 < (0 : ℝ) ∧ (1 : ℝ) ≤ formula 1 0 :=
  ⟨by norm_num, by norm_num, formula_monotone 1 0 (by norm_num) (by norm_num)⟩

/-- C7: simulating a single-element series [t] from w0 yields exactly one
application of the growth formula. -/
theorem simulate_weight_singleton (w0 t : ℝ) :
    simulate_weight w0 [t] = formula w0 t :=
  rfl

/-- C10: called directly with an empty temperature list, simulate_weight
returns w0 unchanged (reduce's initial accumulator); non-emptiness is not
checked inside simulate_weight itself, and no error is possible there. -/
theorem simulate_weight_nil (w0 : ℝ) :
    simulate_weight w0 [] = w0 :=
  rfl

/-- C6: for w0 ≥ 0, every intermediate accumulator value fed into the
exponentiation weight_cur ^ beta inside simulate_weight is ≥ 0, so the
undefined negative-base case of the fractional power is unreachable (the
embedding is total, so no other failure is possible either). -/
theorem accumulators_nonneg (w0 : ℝ) (temps : List ℝ) (hw : 0 ≤ w0) :
    ∀ w ∈ accumulators w0 temps, 0 ≤ w := by
  induction temps generalizing w0 with
  | nil => intro w hw'; simp [accumulators] at hw'
  | cons t ts ih =>
      intro w hwmem
      simp only [accumulators] at hwmem
      rcases List.mem_cons.mp hwmem with h | h
      · exact h ▸ hw
      · exact ih (formula w0 t) (hw.trans (formula_ge_self w0 t hw)) w h

/-- Witness for C6 at w0 = 2, temps = [5, 10]: the second day's accumulator
formula 2 5 is among the exponentiation bases and is non-negative. -/
theorem accumulators_nonneg_witness :
    0 ≤ (2 : ℝ) ∧ 0 ≤ formula 2 5 := by
  refine ⟨by norm_num, accumulators_nonneg 2 [5, 10] (by norm_num) (formula 2 5) ?_⟩
  simp [accumulators]

/-- C8: the fold is order-sensitive at w0 = 100: swapping the two-day series
[5, 10] to [10, 5] changes the final weight. The two results differ by
0.038 * (E2 * (x1 ^ b - 100 ^ b) - E1 * (y1 ^ b - 100 ^ b)) with
E1 = exp 0.4 < E2 = exp 0.8, x1 = 100 + K * E1, y1 = 100 + K * E2,
K = 0.038 * 100 ^ b, and this is positive by strict concavity of the map
x ↦ x ^ b for b = 0.6667 ∈ (0, 1): the chord slope from 100 shrinks as the
endpoint moves right. -/
theorem simulate_weight_order_sensitive :
    simulate_weight 100 [5, 10] ≠ simulate_weight 100 [10, 5] := by
  have hR1 : simulate_weight 100 [5, 10] =
      0.038 * (0.038 * (100 : ℝ) ^ (0.6667 : ℝ) * Real.exp (5 * 0.08) + 100) ^ (0.6667 : ℝ) *
        Real.exp (10 * 0.08) +
        (0.038 * (100 : ℝ) ^ (0.6667 : ℝ) * Real.exp (5 * 0.08) + 100) := rfl
  have hR2 : simulate_weight 100 [10, 5] =
      0.038 * (0.038 * (100 : ℝ) ^ (0.6667 : ℝ) * Real.exp (10 * 0.08) + 100) ^ (0.6667 : ℝ) *
        Real.exp (5 * 0.08) +
        (0.038 * (100 : ℝ) ^ (0.6667 : ℝ) * Real.exp (10 * 0.08) + 100) := rfl
  rw [hR1, hR2]
  have e1pos : (0 : ℝ) < Real.exp (5 * 0.08) := Real.exp_pos _
  have e2pos : (0 : ℝ) < Real.exp (10 * 0.08) := Real.exp_pos _
  have e12 : Real.exp (5 * 0.08) < Real.exp (10 * 0.08) := by
    rw [Real.exp_lt_exp]; norm_num
  have hCpos : (0 : ℝ) < (100 : ℝ) ^ (0.6667 : ℝ) :=
    Real.rpow_pos_of_pos (by norm_num) _
  have hKE2 : (0 : ℝ) < 0.038 * (100 : ℝ) ^ (0.6667 : ℝ) * Real.exp (10 * 0.08) :=
    mul_pos (mul_pos (by norm_num) hCpos) e2pos
  have hconc :=
    Real.strictConcaveOn_rpow (show (0 : ℝ) < 0.6667 by norm_num)
      (show (0.6667 : ℝ) < 1 by norm_num)
  have hxmem :
      (0.038 * (100 : ℝ) ^ (0.6667 : ℝ) * Real.exp (10 * 0.08) + 100) ∈ Set.Ici (0 : ℝ) := by
    apply Set.mem_Ici.mpr; positivity
  have hymem : (100 : ℝ) ∈ Set.Ici (0 : ℝ) := by
    apply Set.mem_Ici.mpr; norm_num
  have h100lt :
      (100 : ℝ) < 0.038 * (100 : ℝ) ^ (0.6667 : ℝ) * Real.exp (10 * 0.08) + 100 := by
    linarith
  have hapos : 0 < Real.exp (5 * 0.08) / Real.exp (10 * 0.08) := div_pos e1pos e2pos
  have hbpos : 0 < 1 - Real.exp (5 * 0.08) / Real.exp (10 * 0.08) := by
    have h1 : Real.exp (5 * 0.08) / Real.exp (10 * 0.08) < 1 := (div_lt_one e2pos).mpr e12
    linarith
  have hab :
      Real.exp (5 * 0.08) / Real.exp (10 * 0.08) +
        (1 - Real.exp (5 * 0.08) / Real.exp (10 * 0.08)) = 1 := by ring
  have key := hconc.2 hxmem hymem h100lt.ne' hapos hbpos hab
  simp only [smul_eq_mul] at key
  have harg :
      Real.exp (5 * 0.08) / Real.exp (10 * 0.08) *
          (0.038 * (100 : ℝ) ^ (0.6667 : ℝ) * Real.exp (10 * 0.08) + 100) +
        (1 - Real.exp (5 * 0.08) / Real.exp (10 * 0.08)) * 100 =
      0.038 * (100 : ℝ) ^ (0.6667 : ℝ) * Real.exp (5 * 0.08) + 100 := by
    field_simp
    ring
  rw [harg] at key
  have hmul := mul_lt_mul_of_pos_left key e2pos
  have heq :
      Real.exp (10 * 0.08) *
          (Real.exp (5 * 0.08) / Real.exp (10 * 0.08) *
              (0.038 * (100 : ℝ) ^ (0.6667 : ℝ) * Real.exp (10 * 0.08) + 100) ^ (0.6667 : ℝ) +
            (1 - Real.exp (5 * 0.08) / Real.exp (10 * 0.08)) * (100 : ℝ) ^ (0.6667 : ℝ)) =
      Real.exp (5 * 0.08) *
          (0.038 * (100 : ℝ) ^ (0.6667 : ℝ) * Real.exp (10 * 0.08) + 100) ^ (0.6667 : ℝ) +
        (Real.exp (10 * 0.08) - Real.exp (5 * 0.08)) * (100 : ℝ) ^ (0.6667 : ℝ) := by
    field_simp
  apply ne_of_gt
  linarith [hmul, heq]

/-- C5: check_sanity succeeds for every positive initial weight and non-empty
temperature list, whatever the temperatures are (even ≤ -273): the third
assert's argument is a tuple literal, which is always truthy. -/
theorem check_sanity_ignores_temperatures (w0 : ℚ) (temps : List ℚ)
    (hw : 0 < w0) (ht : temps ≠ []) :
    check_sanity w0 temps = true := by
  unfold check_sanity truthyPair
  have hlen : 0 < temps.length := List.length_pos.mpr ht
  simp [hw, hlen]

/-- Witness for C5 at w0 = 1, temps = [-500]: a physically impossible
temperature passes the sanity check. -/
theorem check_sanity_ignores_temperatures_witness :
    0 < (1 : ℚ) ∧ ([(-500 : ℚ)] ≠ []) ∧ check_sanity 1 [-500] = true :=
  ⟨by norm_num, by simp, check_sanity_ignores_temperatures 1 [-500] (by norm_num) (by simp)⟩

/-- C4 (failing input): the claimed validation rule says check_sanity must
fail when some temperature is ≤ -273, but the code accepts w0 = 1,
temperatures = [-300]: the temperature assert is a tuple literal and never
fires, contradicting its own error message. -/
theorem check_sanity_accepts_cold_input :
    check_sanity 1 [-300] = true := by
  decide

/-- C9 (counterexample): on the text "labels\n1,2,3\n\n4,5,6" — which has an
interior blank line — read_data drops the blank line and returns the two
parsed third-column values 3 and 6, while the contract as stated (blank
lines ignored only when trailing) makes the blank line a subsequent row
lacking a 3rd column, hence a ParseError; the claim as stated is false at
this input. -/
theorem read_data_claim_counterexample :
    read_data "labels\n1,2,3\n\n4,5,6" = some [3, 6] ∧
    read_data_spec "labels\n1,2,3\n\n4,5,6" = none ∧
    read_data "labels\n1,2,3\n\n4,5,6" ≠
      read_data_spec "labels\n1,2,3\n\n4,5,6" := by
  have h1 : read_data "labels\n1,2,3\n\n4,5,6" =
      some [1 * ((3 : ℕ) : ℚ) * (10 : ℚ) ^ (0 : ℤ),
        1 * ((6 : ℕ) : ℚ) * (10 : ℚ) ^ (0 : ℤ)] := rfl
  have h2 : read_data_spec "labels\n1,2,3\n\n4,5,6" = none := rfl
  refine ⟨?_, h2, ?_⟩
  · rw [h1]; norm_num
  · rw [h1, h2]; simp

/-- C9 (amended): read_data, given the text of a comma-delimited file,
ignores all blank lines (leading, interior and trailing, not only trailing
ones), discards the first remaining (header) row, and returns the 3rd column
(index 2) of each later row parsed as a floating-point number, in row order,
failing when such a row lacks a 3rd column or that column is not numeric: it
agrees with the amended DataReader contract on every input text. -/
theorem read_data_eq_spec_amended (text : String) :
    read_data text = read_data_spec_amended text := by
  show (match (splitOnChar (Char.ofNat 10) text.toList).filter
      (fun line => !line.isEmpty) with
    | [] => none
    | labelsRow :: rest =>
        (mapOption (fun d => d.get? 2)
          (rest.map (fun d => splitOnChar ',' d))).bind
          (fun thirds => mapOption pyFloat thirds)) =
    read_data_spec_amended text
  unfold read_data_spec_amended
  cases (splitOnChar (Char.ofNat 10) text.toList).filter
      (fun line => !line.isEmpty) with
  | nil => rfl
  | cons labelsRow rest =>
      show (mapOption (fun d => d.get? 2)
          (rest.map (fun d => splitOnChar ',' d))).bind
          (fun thirds => mapOption pyFloat thirds) =
        mapOption (fun r => ((splitOnChar ',' r).get? 2).bind pyFloat) rest
      rw [mapOption_map (fun d => splitOnChar ',' d) (fun d => d.get? 2) rest]
      exact mapOption_bind (fun d => (splitOnChar ',' d).get? 2) pyFloat rest

end FishSim
